import Mathlib

/-!
Shallow embedding of the snake game from `src/main.rs` (Bevy ECS, Rust).

The game state relevant to the verified claims is: the list of snake segment
positions (head first, matching the order of the `SnakeSegments` resource),
the head's current heading (`SnakeHead.direction`), and the buffered
directional inputs (`InputBuffer.inputs`, front of the `VecDeque` first).
Rendering, entity ids and Bevy plumbing are not modelled. Event channels are
modelled by how many times each event was sent during a system run; the
consumers in the code read events with `iter().next().is_some()`, which is
modelled by testing positivity of the count. Grid coordinates are `i32` in
the code; they are modelled as `Int` (the positions handled by the game stay
far from the `i32` boundaries, so wrap-around never occurs).
-/

namespace SnakeGame

/-- The four movement directions (`enum Direction` in the source). -/
inductive Direction where
  | Left
  | Up
  | Right
  | Down
deriving DecidableEq, Repr

/-- The function `Direction::opposite` from the source. -/
def Direction.opposite : Direction → Direction
  | .Left => .Right
  | .Right => .Left
  | .Up => .Down
  | .Down => .Up

/-- A grid cell (`struct Position { x: i32, y: i32 }`). -/
structure Position where
  x : Int
  y : Int
deriving DecidableEq, Repr

/-- The constant `ARENA_WIDTH: u32 = 32`. -/
def ARENA_WIDTH : Int := 32

/-- The constant `ARENA_HEIGHT: u32 = 18`. -/
def ARENA_HEIGHT : Int := 18

/-- The mutable game state the verified systems read and write. -/
structure SnakeState where
  segments : List Position
  direction : Direction
  buffer : List Direction
deriving DecidableEq, Repr

/-- The horizontal displacement of one movement step in direction `d`
(from the `match` on `head.direction` in `snake_movement`). -/
def Direction.dx : Direction → Int
  | .Left => -1
  | .Right => 1
  | .Up => 0
  | .Down => 0

/-- The vertical displacement of one movement step in direction `d`
(from the `match` on `head.direction` in `snake_movement`). -/
def Direction.dy : Direction → Int
  | .Left => 0
  | .Right => 0
  | .Up => 1
  | .Down => -1

/-- One movement step applied to a position: the source mutates
`head_pos.x`/`head_pos.y` by the unit vector of the heading. -/
def movePos (p : Position) (d : Direction) : Position :=
  ⟨p.x + d.dx, p.y + d.dy⟩

/-- The boundary test of `snake_movement`:
`head_pos.x < 0 || head_pos.y < 0 || head_pos.x as u32 >= ARENA_WIDTH ||
head_pos.y as u32 >= ARENA_HEIGHT` (the `as u32` casts are reached only
after the sign tests have ruled out negative values, so on `Int` they are
the plain comparisons). -/
def outOfBoundsB (p : Position) : Bool :=
  decide (p.x < 0) || decide (p.y < 0) ||
    decide (ARENA_WIDTH ≤ p.x) || decide (ARENA_HEIGHT ≤ p.y)

/-- The input-consumption loop at the top of `snake_movement`:

```
while let Some(input) = input_buffer.inputs.pop_front() {
    if input.opposite() != head.direction {
        head.direction = input;
        break;
    }
}
```

Returns the heading after the loop and the remaining buffer contents. -/
def popMatching (d : Direction) : List Direction → Direction × List Direction
  | [] => (d, [])
  | i :: rest => if i.opposite ≠ d then (i, rest) else popMatching d rest

/-- Everything one run of the `snake_movement` system produces: the updated
state, how many `GameOverEvent` and `FoodEvent` were sent, the recorded
`LastTailPosition`, and which of the two `GameOverEvent` send sites fired
(the self-collision branch and the out-of-bounds branch). -/
structure MoveResult where
  state : SnakeState
  gameOverEvents : Nat
  foodEvents : Nat
  lastTail : Option Position
  selfCollision : Bool
  oob : Bool
deriving Repr

/-- The `snake_movement` system. When there is no head entity the
`if let Some(...)` body is skipped; otherwise: record the pre-move segment
positions, consume buffered input, move the head by the (possibly updated)
heading, send `GameOverEvent` and `FoodEvent` once if the new head is out of
bounds and once more if it equals a pre-move segment position, shift each
non-head segment to the pre-move position of the segment ahead of it, and
record the pre-move tail position in `LastTailPosition`. -/
def snake_movement (s : SnakeState) : MoveResult :=
  match s.segments with
  | [] => ⟨s, 0, 0, none, false, false⟩
  | hd :: tl =>
    let pm := popMatching s.direction s.buffer
    let newHead := movePos hd pm.1
    let oob := outOfBoundsB newHead
    let coll := decide (newHead ∈ hd :: tl)
    { state := ⟨newHead :: (hd :: tl).dropLast, pm.1, pm.2⟩
      gameOverEvents := (if oob then 1 else 0) + (if coll then 1 else 0)
      foodEvents := (if oob then 1 else 0) + (if coll then 1 else 0)
      lastTail := some ((hd :: tl).getLast (List.cons_ne_nil hd tl))
      selfCollision := coll
      oob := oob }

/-- The state `spawn_snake` builds: head entity at `(3, 3)` with
`SnakeHead { direction: Direction::Up }`, one body segment at `(3, 2)`.
The input buffer starts empty (`init_inputs` creates an empty `VecDeque`). -/
def spawn_snake : SnakeState :=
  ⟨[⟨3, 3⟩, ⟨3, 2⟩], Direction.Up, []⟩

/-- The `game_over` system, fed the number of `GameOverEvent`s sent this
frame. It acts iff `reader.iter().next().is_some()`: it despawns every food
and segment entity, runs `spawn_snake`, and clears the input buffer;
otherwise the state is untouched. -/
def game_over (gameOverEvents : Nat) (s : SnakeState) : SnakeState :=
  if 0 < gameOverEvents then spawn_snake else s

/-- The `snake_movement_input` system for one frame. `pressed d` models
`keyboard_input.just_pressed` for the key of direction `d`. The source
guards a single `if / else if` chain with `input_buffer.inputs.len() < 3`,
so at most one direction is pushed per frame, chosen in the fixed order
Left, Down, Up, Right. -/
def snake_movement_input (pressed : Direction → Bool) (buf : List Direction) :
    List Direction :=
  if buf.length < 3 then
    if pressed .Left then buf ++ [.Left]
    else if pressed .Down then buf ++ [.Down]
    else if pressed .Up then buf ++ [.Up]
    else if pressed .Right then buf ++ [.Right]
    else buf
  else buf

/-- A frame in which exactly the key of direction `d` was just pressed. -/
def pressOnly (d : Direction) : Direction → Bool :=
  fun e => decide (e = d)

/-- A frame in which the Left and Up keys were both just pressed. -/
def pressLeftUp : Direction → Bool
  | .Left => true
  | .Up => true
  | _ => false

/-- The direction `snake_movement_input`'s `if / else if` chain selects:
the first pressed key in the order Left, Down, Up, Right, if any. -/
def firstPressed (pressed : Direction → Bool) : Option Direction :=
  if pressed .Left then some .Left
  else if pressed .Down then some .Down
  else if pressed .Up then some .Up
  else if pressed .Right then some .Right
  else none

/-- The `snake_eating` system: for every food whose position equals the head
position it sends one `GrowthEvent` and one `FoodEvent` (and despawns the
food). Returns the number of `GrowthEvent`s sent, which also equals the
number of `FoodEvent`s sent by this system. -/
def snake_eating (head_pos : Position) (food_positions : List Position) : Nat :=
  food_positions.countP (fun p => decide (p = head_pos))

/-- The `snake_growth` system: if `growth_reader.iter().next().is_some()` it
pushes one new segment entity spawned at `last_tail_position.0.unwrap()`.
The `unwrap` of a `None` tail is a panic, modelled as `none`. -/
def snake_growth (growthPending : Bool) (lastTail : Option Position)
    (segs : List Position) : Option (List Position) :=
  if growthPending then
    match lastTail with
    | some p => some (segs ++ [p])
    | none => none
  else some segs

/-- The conversion `(random::<f32>() * ARENA_WIDTH as f32) as i32` (and the
same for the height), which both `init_food` and `food_spawner` use to turn
two unit-interval random draws into a grid position. The draws are modelled
as rationals; `random::<f32>()` lies in `[0, 1)`, where the `as i32`
truncation agrees with the floor. -/
def drawPosition (u v : ℚ) : Position :=
  ⟨(u * (32 : ℚ)).floor, (v * (18 : ℚ)).floor⟩

/-- The `init_food` startup system: it spawns food at a fresh random
position, with no check against the snake's segment positions. -/
def init_food (u v : ℚ) : Position :=
  drawPosition u v

/-- The rejection-sampling `loop` of `food_spawner`: if the current
candidate equals some segment position, redraw and retry, else keep it.
Here `draws` is the stream of grid positions the remaining random draws
convert to; an exhausted stream models a non-terminating run and yields
`none`. -/
def foodSpawnerLoop (segs : List Position) : Position → List Position → Option Position
  | c, draws =>
    if c ∈ segs then
      match draws with
      | [] => none
      | d :: rest => foodSpawnerLoop segs d rest
    else some c

/-- The `food_spawner` system body once a `FoodEvent` was read: draw an
initial candidate from `(u, v)` and run the rejection loop against the
current segment positions, converting each further draw with
`drawPosition`. -/
def food_spawner (segs : List Position) (u v : ℚ) (draws : List (ℚ × ℚ)) :
    Option Position :=
  foodSpawnerLoop segs (drawPosition u v) (draws.map (fun w => drawPosition w.1 w.2))

/-- A two-segment snake whose body segment lies directly behind the head,
opposite the heading. This holds for the state built by `spawn_snake` and is
re-established by every movement tick that consumes no input. -/
def StraightTwo (s : SnakeState) : Prop :=
  ∃ hd : Position, s.segments = [hd, movePos hd s.direction.opposite]

theorem foodEvents_eq_gameOverEvents (s : SnakeState) :
    (snake_movement s).foodEvents = (snake_movement s).gameOverEvents := by
  unfold snake_movement
  match s.segments with
  | [] => rfl
  | hd :: tl => rfl

theorem gameOverEvents_eq (hd : Position) (tl : List Position) (d : Direction)
    (buf : List Direction) :
    (snake_movement ⟨hd :: tl, d, buf⟩).gameOverEvents
      = (if outOfBoundsB (movePos hd (popMatching d buf).1) = true then 1 else 0)
        + (if movePos hd (popMatching d buf).1 ∈ hd :: tl then 1 else 0) := by
  show (if outOfBoundsB (movePos hd (popMatching d buf).1) then 1 else 0)
      + (if decide (movePos hd (popMatching d buf).1 ∈ hd :: tl) then 1 else 0) = _
  by_cases h1 : outOfBoundsB (movePos hd (popMatching d buf).1) = true <;>
    by_cases h2 : movePos hd (popMatching d buf).1 ∈ hd :: tl <;>
      simp [h1, h2]

theorem getq_dropLast {α : Type _} :
    ∀ (l : List α) (i : Nat), i + 1 < l.length → l.dropLast[i]? = l[i]?
  | [], i, h => by simp at h
  | [a], i, h => by simp at h
  | a :: b :: t, 0, h => by simp [List.dropLast]
  | a :: b :: t, i + 1, h => by
    have hlt : i + 1 < (b :: t).length := by
      simpa [Nat.succ_lt_succ_iff] using h
    simpa [List.dropLast] using getq_dropLast (b :: t) i hlt

/-- C1 counterexample. The claim predicts that with heading `Up` and buffer
`[Up, Left]` the entry `Up` (equal to the heading) is scanned past, `Left`
becomes the new heading, and the buffer ends empty. The code instead stops
at `Up` (only entries equal to the opposite of the heading are skipped),
keeps the heading `Up`, and leaves `Left` in the buffer. -/
theorem c1_counterexample :
    popMatching Direction.Up [Direction.Up, Direction.Left]
      = (Direction.Up, [Direction.Left]) ∧
    (Direction.Up, [Direction.Left])
      ≠ (Direction.Left, ([] : List Direction)) := by
  exact ⟨rfl, by decide⟩

/-- C1 (amended): per-tick input consumption removes entries from the front
until it finds one whose opposite differs from the current heading `d`;
only entries equal to `opposite d` are skipped and discarded. The first
other entry (possibly equal to `d` itself, in which case the heading value
is unchanged) is applied as the new heading and scanning stops, leaving the
remaining entries in the buffer. If every entry is the opposite of `d`, the
heading is unchanged and the buffer ends empty. -/
theorem c1_input_consumption (d : Direction) (buf : List Direction) :
    ((∀ i ∈ buf, i.opposite = d) ∧ popMatching d buf = (d, [])) ∨
    (∃ pre i post, buf = pre ++ i :: post ∧ (∀ j ∈ pre, j.opposite = d) ∧
      i.opposite ≠ d ∧ popMatching d buf = (i, post)) := by
  induction buf with
  | nil => exact Or.inl ⟨by simp, rfl⟩
  | cons i rest ih =>
    by_cases h : i.opposite = d
    · rcases ih with ⟨hall, heq⟩ | ⟨pre, j, post, hsplit, hpre, hj, heq⟩
      · refine Or.inl ⟨?_, ?_⟩
        · intro k hk
          rcases List.mem_cons.mp hk with hk | hk
          · exact hk ▸ h
          · exact hall k hk
        · simp [popMatching, h, heq]
      · refine Or.inr ⟨i :: pre, j, post, by simp [hsplit], ?_, hj, ?_⟩
        · intro k hk
          rcases List.mem_cons.mp hk with hk | hk
          · exact hk ▸ h
          · exact hpre k hk
        · simp [popMatching, h, heq]
    · exact Or.inr ⟨[], i, rest, rfl, by simp, h, by simp [popMatching, h]⟩

/-- C1 witness: the amended characterization instantiated at heading `Up`
and buffer `[Down, Left]`. -/
theorem c1_input_consumption_witness :
    ((∀ i ∈ [Direction.Down, Direction.Left], i.opposite = Direction.Up) ∧
      popMatching Direction.Up [Direction.Down, Direction.Left]
        = (Direction.Up, [])) ∨
    (∃ pre i post,
      [Direction.Down, Direction.Left] = pre ++ i :: post ∧
      (∀ j ∈ pre, j.opposite = Direction.Up) ∧
      i.opposite ≠ Direction.Up ∧
      popMatching Direction.Up [Direction.Down, Direction.Left] = (i, post)) :=
  c1_input_consumption Direction.Up [Direction.Down, Direction.Left]

/-- C6: whenever the rejection-sampling loop of `food_spawner` terminates
with a spawned food position, that position is distinct from every current
snake segment position; the same transfers to the full `food_spawner` body
with its random unit-interval draws. -/
theorem c6_food_disjoint (segs : List Position) (c : Position)
    (draws : List Position) (p : Position) :
    (foodSpawnerLoop segs c draws = some p → p ∉ segs) ∧
    (∀ u v : ℚ, ∀ qdraws : List (ℚ × ℚ), ∀ q : Position,
      food_spawner segs u v qdraws = some q → q ∉ segs) := by
  have main : ∀ (dr : List Position) (c0 : Position) (p0 : Position),
      foodSpawnerLoop segs c0 dr = some p0 → p0 ∉ segs := by
    intro dr
    induction dr with
    | nil =>
      intro c0 p0 h
      unfold foodSpawnerLoop at h
      by_cases hc : c0 ∈ segs
      · simp [hc] at h
      · simp [hc] at h
        exact h ▸ hc
    | cons d rest ih =>
      intro c0 p0 h
      unfold foodSpawnerLoop at h
      by_cases hc : c0 ∈ segs
      · simp [hc] at h
        exact ih d p0 h
      · simp [hc] at h
        exact h ▸ hc
  exact ⟨main draws c p, fun u v qdraws q h => main _ _ q h⟩

/-- C6 witness: with the snake occupying `(3, 3)`, a first candidate at
`(3, 3)` collides, the redraw at `(0, 0)` is accepted, and the spawned food
indeed avoids the snake. -/
theorem c6_food_disjoint_witness : (⟨0, 0⟩ : Position) ∉ [(⟨3, 3⟩ : Position)] :=
  (c6_food_disjoint [⟨3, 3⟩] ⟨3, 3⟩ [⟨0, 0⟩] ⟨0, 0⟩).1 (by decide)

/-- C2: one movement tick sets the new head to the old head plus the unit
vector of the (possibly updated) heading, each non-head segment `i ≥ 1`
takes the pre-move position of segment `i - 1`, and the segment count is
unchanged; the unit vectors are Up `+y`, Down `-y`, Left `-x`, Right `+x`;
from head `(3, 3)` / tail `(3, 2)` heading Up with no buffered input, one
tick yields head `(3, 4)`, tail `(3, 3)`, no GameOver or FoodNeeded event,
and no Growth event as long as no food sits at `(3, 4)`. -/
theorem c2_movement_tick (s : SnakeState) (hd : Position) (tl : List Position)
    (hseg : s.segments = hd :: tl) :
    ((snake_movement s).state.segments
        = movePos hd (popMatching s.direction s.buffer).1 :: (hd :: tl).dropLast ∧
      (∀ i : Nat, i + 1 < s.segments.length →
        (snake_movement s).state.segments[i + 1]? = s.segments[i]?) ∧
      (snake_movement s).state.segments.length = s.segments.length) ∧
    (∀ p : Position,
      movePos p Direction.Up = ⟨p.x, p.y + 1⟩ ∧
      movePos p Direction.Down = ⟨p.x, p.y - 1⟩ ∧
      movePos p Direction.Left = ⟨p.x - 1, p.y⟩ ∧
      movePos p Direction.Right = ⟨p.x + 1, p.y⟩) ∧
    ((snake_movement spawn_snake).state.segments
        = [(⟨3, 4⟩ : Position), ⟨3, 3⟩] ∧
      (snake_movement spawn_snake).gameOverEvents = 0 ∧
      (snake_movement spawn_snake).foodEvents = 0 ∧
      (∀ fps : List Position, (⟨3, 4⟩ : Position) ∉ fps →
        snake_eating ⟨3, 4⟩ fps = 0)) := by
  obtain ⟨segs, d, buf⟩ := s
  simp only [SnakeState.mk.injEq] at hseg ⊢
  subst hseg
  refine ⟨⟨rfl, ?_, ?_⟩, ?_, ?_, ?_, ?_, ?_⟩
  · intro i hi
    show (movePos hd (popMatching d buf).1 :: (hd :: tl).dropLast)[i + 1]?
      = (hd :: tl)[i]?
    simpa using getq_dropLast (hd :: tl) i (by simpa using hi)
  · show (movePos hd (popMatching d buf).1 :: (hd :: tl).dropLast).length
      = (hd :: tl).length
    simp
  · intro p
    refine ⟨?_, ?_, ?_, ?_⟩ <;>
      simp [movePos, Direction.dx, Direction.dy, Position.mk.injEq] <;> omega
  · decide
  · decide
  · decide
  · intro fps hf
    simp only [snake_eating, List.countP_eq_zero]
    intro p hp
    simp only [decide_eq_true_eq]
    intro hpe
    exact hf (hpe ▸ hp)

/-- C2 witness: the general body-shift statement instantiated at the spawn
state. -/
theorem c2_movement_tick_witness :
    (snake_movement spawn_snake).state.segments
      = movePos ⟨3, 3⟩ (popMatching spawn_snake.direction spawn_snake.buffer).1
          :: ([(⟨3, 3⟩ : Position), ⟨3, 2⟩]).dropLast :=
  (c2_movement_tick spawn_snake ⟨3, 3⟩ [⟨3, 2⟩] rfl).1.1

/-- C3: a movement tick sends `GameOverEvent` (and `FoodEvent`) iff the new
head position is out of bounds (`x < 0`, `y < 0`, `x ≥ ARENA_WIDTH`, or
`y ≥ ARENA_HEIGHT`) or equals some pre-move segment position; the two event
counts always agree; when all pre-move segments are in bounds the events
are sent exactly once; and the event consumer `game_over` is duplicate
safe: any positive number of queued `GameOverEvent`s acts exactly like
one. -/
theorem c3_gameover_events (s : SnakeState) (hd : Position) (tl : List Position)
    (hseg : s.segments = hd :: tl) :
    (0 < (snake_movement s).gameOverEvents ↔
      (outOfBoundsB (movePos hd (popMatching s.direction s.buffer).1) = true ∨
        movePos hd (popMatching s.direction s.buffer).1 ∈ hd :: tl)) ∧
    (snake_movement s).foodEvents = (snake_movement s).gameOverEvents ∧
    (∀ q : Position, outOfBoundsB q = true ↔
      (q.x < 0 ∨ q.y < 0 ∨ ARENA_WIDTH ≤ q.x ∨ ARENA_HEIGHT ≤ q.y)) ∧
    ((∀ p ∈ hd :: tl, outOfBoundsB p = false) →
      0 < (snake_movement s).gameOverEvents →
      (snake_movement s).gameOverEvents = 1 ∧ (snake_movement s).foodEvents = 1) ∧
    (∀ m n : Nat, ∀ t : SnakeState, 0 < m → 0 < n → game_over m t = game_over n t) := by
  obtain ⟨segs, d, buf⟩ := s
  simp only at hseg
  subst hseg
  refine ⟨?_, foodEvents_eq_gameOverEvents _, ?_, ?_, ?_⟩
  · rw [gameOverEvents_eq]
    by_cases h1 : outOfBoundsB (movePos hd (popMatching d buf).1) = true <;>
      by_cases h2 : movePos hd (popMatching d buf).1 ∈ hd :: tl <;>
        simp [h1, h2]
  · intro q
    simp [outOfBoundsB, or_assoc]
  · intro hin hpos
    rw [foodEvents_eq_gameOverEvents, gameOverEvents_eq] at *
    by_cases h2 : movePos hd (popMatching d buf).1 ∈ hd :: tl
    · simp [hin _ h2, h2]
    · by_cases h1 : outOfBoundsB (movePos hd (popMatching d buf).1) = true
      · simp [h1, h2]
      · simp [h1, h2] at hpos
  · intro m n t hm hn
    simp [game_over, hm, hn]

/-- C3 witness: instantiated where the snake walks off the left edge:
segments `(0, 0), (1, 0)` heading Left give new head `(-1, 0)`, which is
out of bounds, and the events fire. -/
theorem c3_gameover_events_witness :
    0 < (snake_movement ⟨[⟨0, 0⟩, ⟨1, 0⟩], Direction.Left, []⟩).gameOverEvents :=
  ((c3_gameover_events ⟨[⟨0, 0⟩, ⟨1, 0⟩], Direction.Left, []⟩ ⟨0, 0⟩ [⟨1, 0⟩]
    rfl).1).mpr (Or.inl (by decide))

/-- C4: whenever a tick's movement sent at least one `GameOverEvent`, the
`game_over` system resets the game to the state `spawn_snake` builds:
exactly 2 segments, head at the canonical origin `(3, 3)` with heading Up,
the single body segment directly behind at `(3, 2)`, and an empty input
buffer; moreover the same tick also sent a `FoodEvent`, so a new food is
requested before the reset is complete. -/
theorem c4_reset (s : SnakeState)
    (hgo : 0 < (snake_movement s).gameOverEvents) :
    game_over (snake_movement s).gameOverEvents (snake_movement s).state
      = spawn_snake ∧
    spawn_snake.segments.length = 2 ∧
    spawn_snake.segments = [(⟨3, 3⟩ : Position), ⟨3, 2⟩] ∧
    spawn_snake.direction = Direction.Up ∧
    spawn_snake.buffer = [] ∧
    (⟨3, 2⟩ : Position) = movePos ⟨3, 3⟩ Direction.Up.opposite ∧
    0 < (snake_movement s).foodEvents := by
  refine ⟨?_, rfl, rfl, rfl, rfl, by decide, ?_⟩
  · simp [game_over, hgo]
  · rw [foodEvents_eq_gameOverEvents]
    exact hgo

/-- C4 witness: the reset instantiated where the snake walks off the left
edge from segments `(0, 0), (1, 0)` heading Left. -/
theorem c4_reset_witness :
    game_over
        (snake_movement ⟨[⟨0, 0⟩, ⟨1, 0⟩], Direction.Left, []⟩).gameOverEvents
        (snake_movement ⟨[⟨0, 0⟩, ⟨1, 0⟩], Direction.Left, []⟩).state
      = spawn_snake :=
  (c4_reset ⟨[⟨0, 0⟩, ⟨1, 0⟩], Direction.Left, []⟩ (by decide)).1

/-- C5: the movement tick records the pre-move tail position in
`LastTailPosition`; with a Growth event pending, `snake_growth` appends
exactly one segment whose position is that recorded pre-move tail (so the
segment count grows by exactly 1 and the appended entry is last); with no
pending Growth event the segment list is unchanged. -/
theorem c5_growth (s : SnakeState) (hd : Position) (tl : List Position)
    (hseg : s.segments = hd :: tl) :
    (snake_movement s).lastTail
      = some ((hd :: tl).getLast (List.cons_ne_nil hd tl)) ∧
    (∀ segs : List Position, ∀ p : Position,
      snake_growth true (some p) segs = some (segs ++ [p]) ∧
      (segs ++ [p]).length = segs.length + 1 ∧
      (segs ++ [p]).getLast? = some p) ∧
    (∀ segs : List Position, ∀ lt : Option Position,
      snake_growth false lt segs = some segs) ∧
    snake_growth true (snake_movement s).lastTail
        (snake_movement s).state.segments
      = some ((snake_movement s).state.segments
          ++ [(hd :: tl).getLast (List.cons_ne_nil hd tl)]) := by
  obtain ⟨segs, d, buf⟩ := s
  simp only at hseg
  subst hseg
  refine ⟨rfl, ?_, ?_, rfl⟩
  · intro segs p
    exact ⟨rfl, by simp, by simp⟩
  · intro segs lt
    rfl

/-- C5 witness: instantiated at the spawn state, where the recorded
pre-move tail is `(3, 2)`. -/
theorem c5_growth_witness :
    snake_growth true (snake_movement spawn_snake).lastTail
        (snake_movement spawn_snake).state.segments
      = some ((snake_movement spawn_snake).state.segments
          ++ [([(⟨3, 3⟩ : Position), ⟨3, 2⟩]).getLast
                (List.cons_ne_nil (⟨3, 3⟩ : Position) [⟨3, 2⟩])]) :=
  (c5_growth spawn_snake ⟨3, 3⟩ [⟨3, 2⟩] rfl).2.2.2

/-- C7: a frame of `snake_movement_input` is a no-op when the buffer
already holds 3 (or more) entries; when there is room and exactly the key
of direction `d` is pressed, `d` is appended at the back; one frame keeps
the buffer within the bound 3; and hence any number of input frames
between ticks keeps the buffer at no more than 3 entries. -/
theorem c7_buffer_capacity :
    (∀ pressed : Direction → Bool, ∀ buf : List Direction,
      3 ≤ buf.length → snake_movement_input pressed buf = buf) ∧
    (∀ d : Direction, ∀ buf : List Direction, buf.length < 3 →
      snake_movement_input (pressOnly d) buf = buf ++ [d]) ∧
    (∀ pressed : Direction → Bool, ∀ buf : List Direction, buf.length ≤ 3 →
      (snake_movement_input pressed buf).length ≤ 3) ∧
    (∀ frames : List (Direction → Bool), ∀ buf : List Direction,
      buf.length ≤ 3 →
      (frames.foldl (fun b pressed => snake_movement_input pressed b) buf).length
        ≤ 3) := by
  have hfull : ∀ pressed : Direction → Bool, ∀ buf : List Direction,
      3 ≤ buf.length → snake_movement_input pressed buf = buf := by
    intro pressed buf h
    have : ¬ buf.length < 3 := by omega
    simp [snake_movement_input, this]
  have hstep : ∀ pressed : Direction → Bool, ∀ buf : List Direction,
      buf.length ≤ 3 → (snake_movement_input pressed buf).length ≤ 3 := by
    intro pressed buf h
    by_cases h3 : buf.length < 3
    · unfold snake_movement_input
      simp only [h3, if_true]
      by_cases hL : pressed .Left
      · simp [hL]; omega
      · by_cases hD : pressed .Down
        · simp [hL, hD]; omega
        · by_cases hU : pressed .Up
          · simp [hL, hD, hU]; omega
          · by_cases hR : pressed .Right
            · simp [hL, hD, hU, hR]; omega
            · simp [hL, hD, hU, hR]; omega
    · rw [hfull pressed buf (by omega)]
      exact h
  refine ⟨hfull, ?_, hstep, ?_⟩
  · intro d buf h
    cases d <;> simp [snake_movement_input, pressOnly, h]
  · intro frames
    induction frames with
    | nil => intro buf h; simpa using h
    | cons pressed rest ih =>
      intro buf h
      simpa using ih (snake_movement_input pressed buf) (hstep pressed buf h)

/-- C7 witness: a full buffer drops a new Left press, and a press of Left
on an empty buffer is appended. -/
theorem c7_buffer_capacity_witness :
    snake_movement_input (pressOnly Direction.Left)
        [Direction.Up, Direction.Up, Direction.Up]
      = [Direction.Up, Direction.Up, Direction.Up] ∧
    snake_movement_input (pressOnly Direction.Left) [] = [Direction.Left] :=
  ⟨c7_buffer_capacity.1 (pressOnly Direction.Left)
      [Direction.Up, Direction.Up, Direction.Up] (by decide),
    c7_buffer_capacity.2.1 Direction.Left [] (by decide)⟩

/-- C8 counterexample. The claim predicts that pressing Left and Up in the
same frame with an empty buffer (capacity allows both) enqueues both
directions; the `if / else if` chain in `snake_movement_input` instead
enqueues only Left, so the buffer ends with one entry, not two. -/
theorem c8_counterexample :
    snake_movement_input pressLeftUp [] = [Direction.Left] ∧
    (snake_movement_input pressLeftUp []).length ≠ 2 := by
  exact ⟨rfl, by decide⟩

/-- C8 (amended): when multiple directional keys are pressed within one
frame, at most one of them is offered to the buffer — the first pressed
key in the fixed priority order Left, Down, Up, Right — subject to the
capacity-3 drop rule, so a single frame enqueues at most one direction. -/
theorem c8_one_push_per_frame (pressed : Direction → Bool)
    (buf : List Direction) :
    snake_movement_input pressed buf
      = (if buf.length < 3 then
          match firstPressed pressed with
          | some d => buf ++ [d]
          | none => buf
        else buf) ∧
    (snake_movement_input pressed buf).length ≤ buf.length + 1 := by
  have heq : snake_movement_input pressed buf
      = (if buf.length < 3 then
          match firstPressed pressed with
          | some d => buf ++ [d]
          | none => buf
        else buf) := by
    unfold snake_movement_input firstPressed
    by_cases h3 : buf.length < 3
    · by_cases hL : pressed .Left
      · simp [h3, hL]
      · by_cases hD : pressed .Down
        · simp [h3, hL, hD]
        · by_cases hU : pressed .Up
          · simp [h3, hL, hD, hU]
          · by_cases hR : pressed .Right
            · simp [h3, hL, hD, hU, hR]
            · simp [h3, hL, hD, hU, hR]
    · simp [h3]
  refine ⟨heq, ?_⟩
  rw [heq]
  by_cases h3 : buf.length < 3
  · cases hfp : firstPressed pressed <;> simp [h3, hfp]
  · simp [h3]

/-- C9 counterexample. The claim quantifies over every in-bounds state with
exactly 2 segments and no buffered input; at the state with segments
`(3, 3), (3, 4)` and heading Up (unreachable by straight movement, but
allowed by the claim's hypotheses) the new head `(3, 4)` equals the
pre-move body position, so the self-collision GameOver does fire. -/
theorem c9_counterexample :
    (SnakeState.mk [⟨3, 3⟩, ⟨3, 4⟩] Direction.Up []).segments.length = 2 ∧
    (∀ p ∈ (SnakeState.mk [⟨3, 3⟩, ⟨3, 4⟩] Direction.Up []).segments,
      outOfBoundsB p = false) ∧
    (SnakeState.mk [⟨3, 3⟩, ⟨3, 4⟩] Direction.Up []).buffer = [] ∧
    (snake_movement ⟨[⟨3, 3⟩, ⟨3, 4⟩], Direction.Up, []⟩).selfCollision = true ∧
    0 < (snake_movement ⟨[⟨3, 3⟩, ⟨3, 4⟩], Direction.Up, []⟩).gameOverEvents := by
  refine ⟨rfl, by decide, rfl, by decide, by decide⟩

/-- C9 (amended): for every 2-segment state whose body segment lies
directly behind the head opposite the heading — the configuration
`spawn_snake` creates and every straight tick re-establishes — a tick with
no buffered input moves the head to a position different from both
pre-move segment positions, so the self-collision GameOver never fires
along a straight run, the heading is unchanged, and the straightness
configuration holds again afterwards. -/
theorem c9_straight_run (s : SnakeState) (hs : StraightTwo s)
    (hb : s.buffer = []) :
    (snake_movement s).selfCollision = false ∧
    (snake_movement s).state.direction = s.direction ∧
    (snake_movement s).state.buffer = [] ∧
    StraightTwo (snake_movement s).state ∧
    StraightTwo spawn_snake := by
  obtain ⟨hd, hseg⟩ := hs
  obtain ⟨segs, d, buf⟩ := s
  simp only at hseg hb
  subst hseg
  subst hb
  obtain ⟨x, y⟩ := hd
  have hne : movePos ⟨x, y⟩ d ∉ [(⟨x, y⟩ : Position), movePos ⟨x, y⟩ d.opposite] := by
    cases d <;>
      simp [movePos, Direction.dx, Direction.dy, Direction.opposite,
        Position.mk.injEq]
  refine ⟨?_, rfl, rfl, ?_, ⟨⟨3, 3⟩, by decide⟩⟩
  · show decide (movePos ⟨x, y⟩ d ∈ [(⟨x, y⟩ : Position), movePos ⟨x, y⟩ d.opposite])
        = false
    exact decide_eq_false hne
  · refine ⟨movePos ⟨x, y⟩ d, ?_⟩
    show movePos ⟨x, y⟩ d
          :: ([(⟨x, y⟩ : Position), movePos ⟨x, y⟩ d.opposite]).dropLast
      = [movePos ⟨x, y⟩ d, movePos (movePos ⟨x, y⟩ d) d.opposite]
    have hback : movePos (movePos ⟨x, y⟩ d) d.opposite = (⟨x, y⟩ : Position) := by
      cases d <;>
        simp [movePos, Direction.dx, Direction.dy, Direction.opposite,
          Position.mk.injEq]
    simp [List.dropLast, hback]

/-- C9 witness: the amended statement instantiated at the spawn state,
whose body segment `(3, 2)` lies directly behind the head `(3, 3)` for the
heading Up. -/
theorem c9_straight_run_witness :
    (snake_movement spawn_snake).selfCollision = false :=
  (c9_straight_run spawn_snake ⟨⟨3, 3⟩, by decide⟩ rfl).1

/-- C10: the startup food placement `init_food` applies no check against
the snake's segment positions: the random draw `(3/32, 1/6)` lands the
initial food exactly on the snake's head segment `(3, 3)` spawned by
`spawn_snake`. Only `food_spawner`, the event-driven spawner, rejects
candidates that collide with the snake. -/
theorem c10_init_food_overlap :
    init_food (3 / 32) (1 / 6) = (⟨3, 3⟩ : Position) ∧
    (⟨3, 3⟩ : Position) ∈ spawn_snake.segments := by
  constructor
  · unfold init_food drawPosition
    norm_num [Rat.floor]
  · decide

end SnakeGame
